import Mathlib

/-!
Verification development for the google-classroom-electron-client bridge.

The definitions below are shallow embeddings of the TypeScript source:

* `writeBridgeMerge` / `updateExistingMerge` embed the `mcpServers` merge
  performed by `MCPLauncherService.writeBridgeConfig` and
  `MCPLauncherService.updateExistingConfigForBridge`
  (src/electron/services/mcp-launcher-service.ts).  A JSON object's
  `mcpServers` field is modelled as an association list from server name to
  entry, in insertion order; JS `delete obj[k]` is `eraseServer`, and adding
  a fresh key appends at the end.

* `verifyClient`, `verifyLicense`, `handleAuthentication`,
  `handleMCPMessage`, `forwardToMCPServer`, `onMessage`, `onClose`,
  `sweepSessions` embed the corresponding private methods of
  `MCPBridgeService` (mcp-bridge-service module).  The registry
  `authenticatedClients : Map<string, AuthenticatedClient>` is modelled as
  an association list from session id to a record carrying `lastActivity`
  (a millisecond timestamp, as `Int` since JS `Date.getTime()` subtraction
  is signed).  Effects on the websocket (close / send) are reified as a
  list of `Action`s; collaborator responses (license query, credential
  load, fetch result) are passed in as explicit parameters.
-/

/-- An `mcpServers` entry as written by the launcher:
`{ command, args, env }`. -/
structure MCPServerEntry where
  command : String
  args : List String
  env : List (String × String)
deriving DecidableEq

/-- The well-known key the installer owns: `googleClassroom`. -/
def wellKnownKey : String := "googleClassroom"

/-- Legacy keys owned by this installer, removed by
`updateExistingConfigForBridge` (`ourServerNames` in the source). -/
def ourServerNames : List String := ["google-classroom-mcp", "google-classroom-bridge"]

/-- The bridge entry written by the launcher: `command: "node"`,
`args: [bridgeConnectorPath]`, env with bridge URL and token. -/
def bridgeEntry (port : Nat) (authToken : String) (connectorPath : String) : MCPServerEntry :=
  { command := "node"
    args := [connectorPath]
    env := [("MCP_BRIDGE_URL", "ws://localhost:" ++ toString port),
            ("MCP_BRIDGE_TOKEN", authToken)] }

/-- The `mcpServers` object: association list in insertion order. -/
abbrev MCPServers := List (String × MCPServerEntry)

/-- JS `delete doc[k]`: drop every pair whose key is `k`. -/
def eraseServer (k : String) (doc : MCPServers) : MCPServers :=
  doc.filter (fun p => p.1 != k)

/-- The merge performed by `writeBridgeConfig`: add the bridge entry under
`googleClassroom` only when absent; never modify existing servers. -/
def writeBridgeMerge (entry : MCPServerEntry) (doc : MCPServers) : MCPServers :=
  if (doc.lookup wellKnownKey).isNone then doc ++ [(wellKnownKey, entry)] else doc

/-- The legacy-name cleanup performed by `updateExistingConfigForBridge`:
delete `google-classroom-mcp` and `google-classroom-bridge`. -/
def removeOurServers (doc : MCPServers) : MCPServers :=
  eraseServer "google-classroom-bridge" (eraseServer "google-classroom-mcp" doc)

/-- The merge performed by `updateExistingConfigForBridge`: remove the
installer's legacy keys, then add `googleClassroom` only when absent. -/
def updateExistingMerge (entry : MCPServerEntry) (doc : MCPServers) : MCPServers :=
  writeBridgeMerge entry (removeOurServers doc)

theorem lookup_append {B : Type} (l1 l2 : List (String × B)) (k : String) :
    (l1 ++ l2).lookup k = ((l1.lookup k).orElse (fun _ => l2.lookup k)) := by
  induction l1 with
  | nil => rfl
  | cons p t ih =>
    by_cases h : k == p.1
    · simp [List.lookup, h, Option.orElse]
    · simp only [List.cons_append, List.lookup, h]
      exact ih

theorem lookup_filter {B : Type} (p : String × B → Bool) (l : List (String × B)) (k : String)
    (hall : ∀ q ∈ l, q.1 = k → p q = true) :
    (l.filter p).lookup k = l.lookup k := by
  induction l with
  | nil => rfl
  | cons q t ih =>
    by_cases hk : k == q.1
    · have hq : q.1 = k := (beq_iff_eq.mp hk).symm
      have hp : p q = true := hall q (List.mem_cons_self _ _) hq
      simp [List.filter, hp, List.lookup, hk]
    · have ih2 := ih (fun r hr hrk => hall r (List.mem_cons_of_mem _ hr) hrk)
      by_cases hp : p q = true
      · simp [List.filter, hp, List.lookup, hk, ih2]
      · simp only [Bool.not_eq_true] at hp
        simp [List.filter, hp, List.lookup, hk, ih2]

theorem lookup_filter_dropped {B : Type} (p : String × B → Bool) (l : List (String × B)) (k : String)
    (hall : ∀ q ∈ l, q.1 = k → p q = false) :
    (l.filter p).lookup k = none := by
  induction l with
  | nil => rfl
  | cons q t ih =>
    have ih2 := ih (fun r hr hrk => hall r (List.mem_cons_of_mem _ hr) hrk)
    by_cases hk : k == q.1
    · have hq : q.1 = k := (beq_iff_eq.mp hk).symm
      have hp : p q = false := hall q (List.mem_cons_self _ _) hq
      simp [List.filter, hp, ih2]
    · by_cases hp : p q = true
      · simp [List.filter, hp, List.lookup, hk, ih2]
      · simp only [Bool.not_eq_true] at hp
        simp [List.filter, hp, ih2]

theorem lookup_eraseServer (k k0 : String) (doc : MCPServers) (h : k ≠ k0) :
    (eraseServer k0 doc).lookup k = doc.lookup k := by
  unfold eraseServer
  refine lookup_filter _ _ _ ?_
  intro q _ hq
  simp [hq, bne_iff_ne]
  intro hc
  exact h (hc ▸ rfl)

theorem lookup_removeOurServers (k : String) (doc : MCPServers)
    (h : ¬ k ∈ ourServerNames) :
    (removeOurServers doc).lookup k = doc.lookup k := by
  have h1 : k ≠ "google-classroom-mcp" := by
    intro hc; exact h (by rw [hc]; simp [ourServerNames])
  have h2 : k ≠ "google-classroom-bridge" := by
    intro hc; exact h (by rw [hc]; simp [ourServerNames])
  unfold removeOurServers
  rw [lookup_eraseServer _ _ _ h2, lookup_eraseServer _ _ _ h1]

theorem lookup_none_of_not_mem_keys {B : Type} (k : String) (l : List (String × B))
    (h : ¬ k ∈ l.map Prod.fst) : l.lookup k = none := by
  induction l with
  | nil => rfl
  | cons q t ih =>
    obtain ⟨a, b⟩ := q
    simp only [List.map_cons, List.mem_cons] at h
    push_neg at h
    have hk : (k == a) = false := by
      simp only [beq_eq_false_iff_ne]
      exact h.1
    simp only [List.lookup, hk]
    exact ih h.2

theorem countP_key_zero_of_lookup_none {B : Type} (k : String) (l : List (String × B))
    (h : l.lookup k = none) : l.countP (fun p => p.1 == k) = 0 := by
  induction l with
  | nil => rfl
  | cons q t ih =>
    obtain ⟨a, b⟩ := q
    by_cases hk : (k == a) = true
    · simp only [List.lookup, hk] at h
      exact Option.noConfusion h
    · simp only [Bool.not_eq_true] at hk
      simp only [List.lookup, hk] at h
      have hk2 : (a == k) = false := by
        simp only [beq_eq_false_iff_ne] at hk ⊢
        exact fun hc => hk hc.symm
      rw [List.countP_cons, ih h, hk2]
      decide

theorem countP_key_one_of_lookup_some {B : Type} (k : String) (l : List (String × B)) (v : B)
    (hnodup : (l.map Prod.fst).Nodup) (h : l.lookup k = some v) :
    l.countP (fun p => p.1 == k) = 1 := by
  induction l with
  | nil => simp [List.lookup] at h
  | cons q t ih =>
    obtain ⟨a, b⟩ := q
    simp only [List.map_cons, List.nodup_cons] at hnodup
    by_cases hk : (k == a) = true
    · have ha : a = k := (beq_iff_eq.mp hk).symm
      have ht : t.lookup k = none := by
        refine lookup_none_of_not_mem_keys _ _ ?_
        rw [← ha]
        exact hnodup.1
      have hz := countP_key_zero_of_lookup_none k t ht
      have hk2 : (a == k) = true := by
        simp only [beq_iff_eq]
        exact ha
      rw [List.countP_cons, hz, hk2]
      decide
    · simp only [Bool.not_eq_true] at hk
      simp only [List.lookup, hk] at h
      have hk2 : (a == k) = false := by
        simp only [beq_eq_false_iff_ne] at hk ⊢
        exact fun hc => hk hc.symm
      rw [List.countP_cons, ih hnodup.2 h, hk2]
      decide

theorem keys_nodup_filter {B : Type} (p : String × B → Bool) (l : List (String × B))
    (h : (l.map Prod.fst).Nodup) : ((l.filter p).map Prod.fst).Nodup := by
  have hsub : List.Sublist ((l.filter p).map Prod.fst) (l.map Prod.fst) :=
    (List.filter_sublist l).map Prod.fst
  exact h.sublist hsub

theorem removeOurServers_idem (doc : MCPServers) :
    removeOurServers (removeOurServers doc) = removeOurServers doc := by
  unfold removeOurServers eraseServer
  simp only [List.filter_filter]
  apply List.filter_congr
  intro q _
  cases h1 : q.1 != "google-classroom-mcp" <;>
    cases h2 : q.1 != "google-classroom-bridge" <;>
      simp [h1, h2]

theorem removeOurServers_append_wk (doc : MCPServers) (entry : MCPServerEntry) :
    removeOurServers (doc ++ [(wellKnownKey, entry)])
      = removeOurServers doc ++ [(wellKnownKey, entry)] := by
  unfold removeOurServers eraseServer
  rw [List.filter_append, List.filter_append]
  have h1 : List.filter (fun p => p.1 != "google-classroom-mcp")
      ([(wellKnownKey, entry)] : MCPServers) = [(wellKnownKey, entry)] := rfl
  have h2 : List.filter (fun p => p.1 != "google-classroom-bridge")
      ([(wellKnownKey, entry)] : MCPServers) = [(wellKnownKey, entry)] := rfl
  rw [h1, h2]

theorem lookup_writeBridgeMerge_wk (entry : MCPServerEntry) (doc : MCPServers) :
    (writeBridgeMerge entry doc).lookup wellKnownKey
      = some ((doc.lookup wellKnownKey).getD entry) := by
  unfold writeBridgeMerge
  cases h : doc.lookup wellKnownKey with
  | none =>
    simp only [h, Option.isNone_none, if_true]
    rw [lookup_append, h]
    have hwk : ((([(wellKnownKey, entry)]) : MCPServers).lookup wellKnownKey)
        = some entry := rfl
    rw [hwk]
    rfl
  | some v =>
    simp only [h, Option.isNone_some, Bool.false_eq_true, if_false]
    rfl

theorem lookup_writeBridgeMerge_other (entry : MCPServerEntry) (doc : MCPServers)
    (k : String) (hk : k ≠ wellKnownKey) :
    (writeBridgeMerge entry doc).lookup k = doc.lookup k := by
  unfold writeBridgeMerge
  cases h : doc.lookup wellKnownKey with
  | none =>
    simp only [h, Option.isNone_none, if_true]
    rw [lookup_append]
    have hsng : (([(wellKnownKey, entry)] : MCPServers)).lookup k = none := by
      have hb : (k == wellKnownKey) = false := by
        simp only [beq_eq_false_iff_ne]
        exact hk
      simp only [List.lookup, hb]
    rw [hsng]
    cases doc.lookup k <;> rfl
  | some v =>
    simp only [h, Option.isNone_some, Bool.false_eq_true, if_false]

theorem writeBridgeMerge_idem (entry : MCPServerEntry) (doc : MCPServers) :
    writeBridgeMerge entry (writeBridgeMerge entry doc) = writeBridgeMerge entry doc := by
  have h := lookup_writeBridgeMerge_wk entry doc
  conv_lhs => rw [writeBridgeMerge]
  rw [h]
  simp only [Option.isNone_some, Bool.false_eq_true, if_false]

theorem writeBridgeMerge_of_lookup_some (entry : MCPServerEntry) (doc : MCPServers)
    (v : MCPServerEntry) (h : doc.lookup wellKnownKey = some v) :
    writeBridgeMerge entry doc = doc := by
  unfold writeBridgeMerge
  simp only [h, Option.isNone_some, Bool.false_eq_true, if_false]

theorem writeBridgeMerge_of_lookup_none (entry : MCPServerEntry) (doc : MCPServers)
    (h : doc.lookup wellKnownKey = none) :
    writeBridgeMerge entry doc = doc ++ [(wellKnownKey, entry)] := by
  unfold writeBridgeMerge
  simp only [h, Option.isNone_none, if_true]

theorem updateExistingMerge_idem (entry : MCPServerEntry) (doc : MCPServers) :
    updateExistingMerge entry (updateExistingMerge entry doc) = updateExistingMerge entry doc := by
  unfold updateExistingMerge
  cases h : (removeOurServers doc).lookup wellKnownKey with
  | some v =>
    rw [writeBridgeMerge_of_lookup_some entry _ v h]
    rw [removeOurServers_idem]
    exact writeBridgeMerge_of_lookup_some entry _ v h
  | none =>
    rw [writeBridgeMerge_of_lookup_none entry _ h]
    rw [removeOurServers_append_wk, removeOurServers_idem]
    have hlk : ((removeOurServers doc ++ [(wellKnownKey, entry)]) : MCPServers).lookup
        wellKnownKey = some entry := by
      rw [lookup_append, h]
      rfl
    exact writeBridgeMerge_of_lookup_some entry _ entry hlk

theorem not_mem_keys_of_lookup_none {B : Type} (k : String) (l : List (String × B))
    (h : l.lookup k = none) : ¬ k ∈ l.map Prod.fst := by
  induction l with
  | nil => simp
  | cons q t ih =>
    obtain ⟨a, b⟩ := q
    by_cases hk : (k == a) = true
    · simp only [List.lookup, hk] at h
      exact Option.noConfusion h
    · simp only [Bool.not_eq_true] at hk
      simp only [List.lookup, hk] at h
      simp only [List.map_cons, List.mem_cons]
      push_neg
      constructor
      · simp only [beq_eq_false_iff_ne] at hk
        exact hk
      · exact ih h

theorem writeBridgeMerge_keys_nodup (entry : MCPServerEntry) (doc : MCPServers)
    (h : (doc.map Prod.fst).Nodup) :
    ((writeBridgeMerge entry doc).map Prod.fst).Nodup := by
  cases hl : doc.lookup wellKnownKey with
  | some v =>
    rw [writeBridgeMerge_of_lookup_some entry doc v hl]
    exact h
  | none =>
    rw [writeBridgeMerge_of_lookup_none entry doc hl]
    rw [List.map_append, List.nodup_append]
    refine ⟨h, List.nodup_singleton _, ?_⟩
    intro x hx hx2
    simp only [List.map_cons, List.map_nil, List.mem_singleton] at hx2
    subst hx2
    exact not_mem_keys_of_lookup_none _ _ hl hx

theorem removeOurServers_keys_nodup (doc : MCPServers)
    (h : (doc.map Prod.fst).Nodup) :
    ((removeOurServers doc).map Prod.fst).Nodup := by
  unfold removeOurServers eraseServer
  exact keys_nodup_filter _ _ (keys_nodup_filter _ _ h)

theorem lookup_updateExistingMerge_wk (entry : MCPServerEntry) (doc : MCPServers) :
    (updateExistingMerge entry doc).lookup wellKnownKey
      = some ((doc.lookup wellKnownKey).getD entry) := by
  unfold updateExistingMerge
  rw [lookup_writeBridgeMerge_wk]
  rw [lookup_removeOurServers _ _ (by decide)]

/-- C1: the config-merge realized by `writeBridgeConfig` and
`updateExistingConfigForBridge` preserves every `mcpServers` entry not owned
by this installer (any key other than `googleClassroom` and the legacy
`google-classroom-mcp` / `google-classroom-bridge`), leaves the well-known
`googleClassroom` entry untouched when already present and otherwise adds it,
so the merged document holds exactly one `googleClassroom` entry, and both
merges are idempotent (running twice gives the same document, in particular
the same well-known-key subtree, as running once). -/
theorem bridge_config_merge_safe (doc : MCPServers) (entry : MCPServerEntry)
    (hnodup : (doc.map Prod.fst).Nodup) :
    (∀ k, k ≠ wellKnownKey → ¬ k ∈ ourServerNames →
        (updateExistingMerge entry doc).lookup k = doc.lookup k ∧
        (writeBridgeMerge entry doc).lookup k = doc.lookup k) ∧
    (updateExistingMerge entry doc).lookup wellKnownKey
      = some ((doc.lookup wellKnownKey).getD entry) ∧
    (writeBridgeMerge entry doc).lookup wellKnownKey
      = some ((doc.lookup wellKnownKey).getD entry) ∧
    (updateExistingMerge entry doc).countP (fun p => p.1 == wellKnownKey) = 1 ∧
    (writeBridgeMerge entry doc).countP (fun p => p.1 == wellKnownKey) = 1 ∧
    updateExistingMerge entry (updateExistingMerge entry doc) = updateExistingMerge entry doc ∧
    writeBridgeMerge entry (writeBridgeMerge entry doc) = writeBridgeMerge entry doc := by
  refine ⟨?_, ?_, ?_, ?_, ?_, updateExistingMerge_idem entry doc, writeBridgeMerge_idem entry doc⟩
  · intro k hk hk2
    constructor
    · unfold updateExistingMerge
      rw [lookup_writeBridgeMerge_other entry _ k hk]
      exact lookup_removeOurServers k doc hk2
    · exact lookup_writeBridgeMerge_other entry doc k hk
  · exact lookup_updateExistingMerge_wk entry doc
  · exact lookup_writeBridgeMerge_wk entry doc
  · refine countP_key_one_of_lookup_some wellKnownKey _
      ((doc.lookup wellKnownKey).getD entry) ?_ (lookup_updateExistingMerge_wk entry doc)
    exact writeBridgeMerge_keys_nodup entry _ (removeOurServers_keys_nodup doc hnodup)
  · refine countP_key_one_of_lookup_some wellKnownKey _
      ((doc.lookup wellKnownKey).getD entry) ?_ (lookup_writeBridgeMerge_wk entry doc)
    exact writeBridgeMerge_keys_nodup entry doc hnodup

/-- A sample document holding one unrelated `mcpServers` entry. -/
def sampleDoc : MCPServers := [("other", { command := "python", args := ["srv.py"], env := [] })]

/-- A sample bridge entry as the launcher would build it. -/
def sampleEntry : MCPServerEntry := bridgeEntry 5123 "tok" "/opt/bridge-connector.cjs"

/-- Witness for C1: the merge guarantees instantiated at a concrete document
with one unrelated entry. -/
theorem bridge_config_merge_safe_witness :
    (∀ k, k ≠ wellKnownKey → ¬ k ∈ ourServerNames →
        (updateExistingMerge sampleEntry sampleDoc).lookup k = sampleDoc.lookup k ∧
        (writeBridgeMerge sampleEntry sampleDoc).lookup k = sampleDoc.lookup k) ∧
    (updateExistingMerge sampleEntry sampleDoc).lookup wellKnownKey
      = some ((sampleDoc.lookup wellKnownKey).getD sampleEntry) ∧
    (writeBridgeMerge sampleEntry sampleDoc).lookup wellKnownKey
      = some ((sampleDoc.lookup wellKnownKey).getD sampleEntry) ∧
    (updateExistingMerge sampleEntry sampleDoc).countP (fun p => p.1 == wellKnownKey) = 1 ∧
    (writeBridgeMerge sampleEntry sampleDoc).countP (fun p => p.1 == wellKnownKey) = 1 ∧
    updateExistingMerge sampleEntry (updateExistingMerge sampleEntry sampleDoc)
      = updateExistingMerge sampleEntry sampleDoc ∧
    writeBridgeMerge sampleEntry (writeBridgeMerge sampleEntry sampleDoc)
      = writeBridgeMerge sampleEntry sampleDoc :=
  bridge_config_merge_safe sampleDoc sampleEntry (by decide)

/-- An entry of `authenticatedClients`: the session object stored at
authentication time (`{ socket, sessionId, authenticated, lastActivity }`);
only `lastActivity` carries state the properties depend on. -/
structure ClientSession where
  lastActivity : Int
deriving DecidableEq

/-- The `authenticatedClients` registry: association list from session id to
session, in insertion order (JS `Map`). -/
abbrev Clients := List (String × ClientSession)

/-- Payloads the bridge writes to a socket with `ws.send`. -/
inductive OutMsg where
  | authSuccess (sessionId : String)
  | response (payload : String)
  | errorEnvelope (id : Option String) (code : Int) (message : String)
deriving DecidableEq

/-- Reified socket effects: `ws.close(code, reason)` and `ws.send(m)`. -/
inductive SockAction where
  | close (code : Nat) (reason : String)
  | send (m : OutMsg)
deriving DecidableEq

/-- An inbound JSON message after parsing: the fields the bridge reads
(`type`, `token`, `id`); a missing field is `none` (JS `undefined`). -/
structure Msg where
  type : Option String
  token : Option String
  id : Option String
deriving DecidableEq

/-- `verifyClient`: accept only a declared host equal to
`localhost:<port>` or `127.0.0.1:<port>`. -/
def verifyClient (host : Option String) (port : Nat) : Bool :=
  host == some ("localhost:" ++ toString port) || host == some ("127.0.0.1:" ++ toString port)

/-- Outcome of a websocket handshake. -/
inductive ConnOutcome where
  | refused
  | admitted (sessionId : String)
deriving DecidableEq

/-- The handshake: the `ws` server consults `verifyClient`; a refused
attempt never reaches `handleNewConnection`, and even an admitted one only
mints a session id — the registry is untouched until authentication. -/
def handleConnectionAttempt (clients : Clients) (host : Option String) (port : Nat)
    (newSessionId : String) : Clients × ConnOutcome :=
  if verifyClient host port then (clients, ConnOutcome.admitted newSessionId)
  else (clients, ConnOutcome.refused)

/-- The license-status response of the identity collaborator
(`supabaseService.getLicenseStatus`). -/
structure LicenseStatus where
  success : Bool
  status : Option String
  daysRemaining : Option Int
deriving DecidableEq

/-- Result shape of `verifyLicense`. -/
structure VerifyResult where
  success : Bool
  error : Option String
deriving DecidableEq

/-- `verifyLicense`: the status query may throw (modelled as `none`), which
is caught and turned into a failure; otherwise `active` or `trial` is
required, and a `trial` with a defined `daysRemaining ≤ 0` is rejected. -/
def verifyLicense : Option LicenseStatus → VerifyResult
  | none => { success := false, error := some "License verification failed" }
  | some ls =>
    if !ls.success then
      { success := false, error := some "Failed to verify license status" }
    else if ls.status != some "active" && ls.status != some "trial" then
      { success := false,
        error := some "Active subscription or trial required to use MCP bridge" }
    else if ls.status == some "trial"
        && (match ls.daysRemaining with
            | some d => decide (d ≤ 0)
            | none => false) then
      { success := false,
        error := some "Trial period has expired. Please upgrade to continue using MCP bridge" }
    else
      { success := true, error := none }

/-- JS `Map.set`: overwrite in place when the key exists, else append. -/
def setClient (sid : String) (c : ClientSession) (clients : Clients) : Clients :=
  if (clients.lookup sid).isSome then
    clients.map (fun p => if p.1 == sid then (sid, c) else p)
  else
    clients ++ [(sid, c)]

/-- `handleAuthentication`: wrong token closes 1008 "Invalid authentication
token"; a failed license re-check closes 1008 "License verification failed";
otherwise the session is stored with `lastActivity := now` and
`auth_success` is sent. -/
def handleAuthentication (authToken : String) (license : Option LicenseStatus)
    (clients : Clients) (sid : String) (msg : Msg) (now : Int) : Clients × List SockAction :=
  if msg.token != some authToken then
    (clients, [SockAction.close 1008 "Invalid authentication token"])
  else if !(verifyLicense license).success then
    (clients, [SockAction.close 1008 "License verification failed"])
  else
    (setClient sid { lastActivity := now } clients,
     [SockAction.send (OutMsg.authSuccess sid)])

/-- Environment of one relay attempt: whether credentials load, the fetch
outcome (`none` = network error / unreachable, `some s` = HTTP status `s`),
and the decoded response body on success. -/
structure ForwardEnv where
  credentialsOk : Bool
  fetchStatus : Option Nat
  responseBody : String
deriving DecidableEq

/-- `response.ok` of the Fetch API: status in the 2xx range. -/
def statusOk (s : Nat) : Bool := decide (200 ≤ s) && decide (s < 300)

/-- `forwardToMCPServer`: throws when credentials are missing, the fetch
fails, or the status is not ok, else returns the response body. -/
def forwardToMCPServer (env : ForwardEnv) : Except String String :=
  if !env.credentialsOk then
    Except.error "No credentials available for MCP server authentication"
  else
    match env.fetchStatus with
    | none => Except.error "fetch failed"
    | some s =>
      if !statusOk s then
        Except.error ("MCP server responded with status: " ++ toString s)
      else
        Except.ok env.responseBody

/-- The error envelope `handleMCPMessage` sends when forwarding throws:
`{ id: message.id, error: { code: -32603, message: ... } }`. -/
def relayErrorEnvelope (msg : Msg) : OutMsg :=
  OutMsg.errorEnvelope msg.id (-32603) "Internal error forwarding to MCP server"

/-- `handleMCPMessage`: ignore unknown sessions; else stamp `lastActivity`
with `now`, forward, and send back either the response or the error
envelope — the socket is never closed here. -/
def handleMCPMessage (env : ForwardEnv) (clients : Clients) (sid : String)
    (msg : Msg) (now : Int) : Clients × List SockAction :=
  match clients.lookup sid with
  | none => (clients, [])
  | some _ =>
    let clients1 := setClient sid { lastActivity := now } clients
    match forwardToMCPServer env with
    | Except.ok resp => (clients1, [SockAction.send (OutMsg.response resp)])
    | Except.error _ => (clients1, [SockAction.send (relayErrorEnvelope msg)])

/-- The `ws.on message` dispatch of `handleNewConnection`: a frame that
fails JSON parsing (`none`) closes 1011; an `auth` frame from a session not
yet in the registry goes to `handleAuthentication`; any frame from a
registered session goes to `handleMCPMessage`; anything else closes 1008
"Authentication required". -/
def onMessage (authToken : String) (license : Option LicenseStatus) (env : ForwardEnv)
    (clients : Clients) (sid : String) (frame : Option Msg) (now : Int) :
    Clients × List SockAction :=
  match frame with
  | none => (clients, [SockAction.close 1011 "Message processing error"])
  | some msg =>
    if msg.type == some "auth" && (clients.lookup sid).isNone then
      handleAuthentication authToken license clients sid msg now
    else if (clients.lookup sid).isSome then
      handleMCPMessage env clients sid msg now
    else
      (clients, [SockAction.close 1008 "Authentication required"])

/-- The `ws.on close` handler: drop the session from the registry. -/
def onClose (clients : Clients) (sid : String) : Clients :=
  clients.filter (fun p => p.1 != sid)

/-- `sessionTimeout` of the bridge: 30 minutes in milliseconds. -/
def sessionTimeout : Int := 30 * 60 * 1000

/-- The sweep interval of `startSessionCleanup`: 60 seconds. -/
def cleanupIntervalMs : Nat := 60000

/-- One tick of `startSessionCleanup`: sessions whose idle time strictly
exceeds `sessionTimeout` are closed 1000 "Session expired" and removed. -/
def sweepSessions (clients : Clients) (now : Int) : Clients × List SockAction :=
  let expired := clients.filter (fun p => decide (now - p.2.lastActivity > sessionTimeout))
  (clients.filter (fun p => !decide (now - p.2.lastActivity > sessionTimeout)),
   expired.map (fun _ => SockAction.close 1000 "Session expired"))

theorem mem_of_lookup_some {B : Type} (l : List (String × B)) (a : String) (b : B)
    (h : l.lookup a = some b) : (a, b) ∈ l := by
  induction l with
  | nil => simp [List.lookup] at h
  | cons q t ih =>
    obtain ⟨x, y⟩ := q
    by_cases hk : (a == x) = true
    · have hax : a = x := beq_iff_eq.mp hk
      simp only [List.lookup, hk] at h
      have hby : y = b := Option.some.inj h
      subst hax; subst hby
      exact List.mem_cons_self _ _
    · simp only [Bool.not_eq_true] at hk
      simp only [List.lookup, hk] at h
      exact List.mem_cons_of_mem _ (ih h)

theorem lookup_eq_of_mem_nodup {B : Type} (l : List (String × B)) (a : String) (b : B)
    (hnodup : (l.map Prod.fst).Nodup) (hmem : (a, b) ∈ l) : l.lookup a = some b := by
  induction l with
  | nil => simp at hmem
  | cons q t ih =>
    obtain ⟨x, y⟩ := q
    simp only [List.map_cons, List.nodup_cons] at hnodup
    rcases List.mem_cons.mp hmem with heq | hmemt
    · obtain ⟨hax, hby⟩ := Prod.mk.injEq .. ▸ heq
      subst hax; subst hby
      simp [List.lookup]
    · by_cases hk : (a == x) = true
      · exfalso
        have hax : a = x := beq_iff_eq.mp hk
        subst hax
        exact hnodup.1 (List.mem_map_of_mem Prod.fst hmemt)
      · simp only [Bool.not_eq_true] at hk
        simp only [List.lookup, hk]
        exact ih hnodup.2 hmemt

theorem lookup_map_overwrite (sid : String) (c : ClientSession) (l : Clients) :
    (l.map (fun p => if p.1 == sid then (sid, c) else p)).lookup sid
      = (l.lookup sid).map (fun _ => c) := by
  induction l with
  | nil => rfl
  | cons q t ih =>
    obtain ⟨x, y⟩ := q
    by_cases hk : (x == sid) = true
    · have hx : x = sid := beq_iff_eq.mp hk
      subst hx
      simp only [List.map_cons, if_pos hk]
      simp [List.lookup]
    · simp only [Bool.not_eq_true] at hk
      have hk2 : (sid == x) = false := by
        simp only [beq_eq_false_iff_ne] at hk ⊢
        exact fun hc => hk hc.symm
      simp only [List.map_cons, hk, Bool.false_eq_true, if_false]
      simp only [List.lookup, hk2]
      exact ih

theorem lookup_setClient_self (sid : String) (c : ClientSession) (l : Clients) :
    (setClient sid c l).lookup sid = some c := by
  unfold setClient
  cases hl : l.lookup sid with
  | none =>
    simp only [Option.isSome_none, Bool.false_eq_true, if_false]
    rw [lookup_append, hl]
    simp [List.lookup, Option.orElse]
  | some v =>
    simp only [Option.isSome_some, if_true]
    rw [lookup_map_overwrite, hl]
    rfl

/-- C2: `verifyClient` admits a connection exactly when the declared host is
`localhost:<port>` or `127.0.0.1:<port>`; a non-matching host is refused at
the handshake and the registry gains no session, while a matching loopback
host is admitted. -/
theorem bridge_admission_filter (host : Option String) (port : Nat)
    (clients : Clients) (sid : String) :
    (verifyClient host port = true ↔
        host = some ("localhost:" ++ toString port) ∨
        host = some ("127.0.0.1:" ++ toString port)) ∧
    (verifyClient host port = false →
        handleConnectionAttempt clients host port sid = (clients, ConnOutcome.refused)) ∧
    (verifyClient host port = true →
        handleConnectionAttempt clients host port sid = (clients, ConnOutcome.admitted sid)) := by
  refine ⟨?_, ?_, ?_⟩
  · unfold verifyClient
    simp
  · intro h
    unfold handleConnectionAttempt
    simp [h]
  · intro h
    unfold handleConnectionAttempt
    simp [h]

/-- Witness for C2 at a non-loopback host and at a loopback host on the
default port 5123. -/
theorem bridge_admission_filter_witness :
    ((verifyClient (some "evil.example:5123") 5123 = true ↔
        some "evil.example:5123" = some ("localhost:" ++ toString 5123) ∨
        some "evil.example:5123" = some ("127.0.0.1:" ++ toString 5123)) ∧
      (verifyClient (some "evil.example:5123") 5123 = false →
        handleConnectionAttempt [] (some "evil.example:5123") 5123 "s1"
          = ([], ConnOutcome.refused)) ∧
      (verifyClient (some "evil.example:5123") 5123 = true →
        handleConnectionAttempt [] (some "evil.example:5123") 5123 "s1"
          = ([], ConnOutcome.admitted "s1"))) ∧
    verifyClient (some "evil.example:5123") 5123 = false ∧
    verifyClient (some "localhost:5123") 5123 = true := by
  refine ⟨bridge_admission_filter (some "evil.example:5123") 5123 [] "s1", by decide, by decide⟩

/-- C3: a message from a session not in the registry whose type is not
`auth` makes the dispatch close the socket 1008 "Authentication required";
nothing is forwarded and the registry is unchanged. -/
theorem bridge_no_relay_before_auth (authToken : String) (license : Option LicenseStatus)
    (env : ForwardEnv) (clients : Clients) (sid : String) (msg : Msg) (now : Int)
    (hanon : clients.lookup sid = none) (htype : msg.type ≠ some "auth") :
    onMessage authToken license env clients sid (some msg) now
      = (clients, [SockAction.close 1008 "Authentication required"]) := by
  unfold onMessage
  have h1 : (msg.type == some "auth") = false := by
    simp only [beq_eq_false_iff_ne]
    exact htype
  simp [h1, hanon]

/-- Witness for C3: a `tools/list` frame from an unknown session. -/
theorem bridge_no_relay_before_auth_witness :
    onMessage "tok" none { credentialsOk := true, fetchStatus := some 200, responseBody := "ok" }
        [] "s1" (some { type := some "tools/list", token := none, id := some "1" }) 0
      = ([], [SockAction.close 1008 "Authentication required"]) :=
  bridge_no_relay_before_auth "tok" none
    { credentialsOk := true, fetchStatus := some 200, responseBody := "ok" }
    [] "s1" { type := some "tools/list", token := none, id := some "1" } 0 rfl (by decide)

/-- C5: an `auth` message carrying a wrong token makes `handleAuthentication`
close the socket 1008 "Invalid authentication token"; no `auth_success` is
sent and the registry is unchanged, so the session is never added. -/
theorem bridge_invalid_token_rejected (authToken : String) (license : Option LicenseStatus)
    (clients : Clients) (sid : String) (msg : Msg) (now : Int)
    (hbad : msg.token ≠ some authToken) :
    handleAuthentication authToken license clients sid msg now
      = (clients, [SockAction.close 1008 "Invalid authentication token"]) ∧
    (handleAuthentication authToken license clients sid msg now).1 = clients ∧
    ∀ a ∈ (handleAuthentication authToken license clients sid msg now).2,
      ∀ s, a ≠ SockAction.send (OutMsg.authSuccess s) := by
  have h1 : (msg.token != some authToken) = true := by
    simp only [bne_iff_ne, ne_eq]
    exact hbad
  have heq : handleAuthentication authToken license clients sid msg now
      = (clients, [SockAction.close 1008 "Invalid authentication token"]) := by
    unfold handleAuthentication
    simp [h1]
  refine ⟨heq, by rw [heq], ?_⟩
  rw [heq]
  intro a ha s
  simp only [List.mem_singleton] at ha
  subst ha
  intro hc
  exact SockAction.noConfusion hc

/-- Witness for C5: a wrong token against configured token `"right"`. -/
theorem bridge_invalid_token_rejected_witness :
    handleAuthentication "right" none [] "s1"
        { type := some "auth", token := some "WRONG", id := none } 0
      = ([], [SockAction.close 1008 "Invalid authentication token"]) ∧
    (handleAuthentication "right" none [] "s1"
        { type := some "auth", token := some "WRONG", id := none } 0).1 = [] ∧
    ∀ a ∈ (handleAuthentication "right" none [] "s1"
        { type := some "auth", token := some "WRONG", id := none } 0).2,
      ∀ s, a ≠ SockAction.send (OutMsg.authSuccess s) :=
  bridge_invalid_token_rejected "right" none [] "s1"
    { type := some "auth", token := some "WRONG", id := none } 0 (by decide)

/-- C10: a frame that fails JSON parsing closes the connection 1011
"Message processing error" for any session, registered or not, and the close
handler then removes the session from the registry. -/
theorem bridge_unparseable_frame_kills_session (authToken : String)
    (license : Option LicenseStatus) (env : ForwardEnv) (clients : Clients)
    (sid : String) (now : Int) :
    onMessage authToken license env clients sid none now
      = (clients, [SockAction.close 1011 "Message processing error"]) ∧
    (onClose clients sid).lookup sid = none := by
  constructor
  · rfl
  · unfold onClose
    apply lookup_filter_dropped
    intro q _ hqk
    simp [hqk]

/-- C4: a first `auth` message with the correct token and a passing license
check stores the session exactly once (the registry gains exactly one entry
under the session id) and sends `auth_success`; any later message on the
now-registered session — in particular another `auth` message — is handled
by `handleMCPMessage` as an ordinary relay payload, never re-processed as
authentication. -/
theorem bridge_auth_idempotent (authToken : String) (license : Option LicenseStatus)
    (env : ForwardEnv) (clients : Clients) (sid : String) (msg msg2 : Msg) (now now2 : Int)
    (hnew : clients.lookup sid = none)
    (htype : msg.type = some "auth")
    (htok : msg.token = some authToken)
    (hlic : (verifyLicense license).success = true) :
    onMessage authToken license env clients sid (some msg) now
      = (clients ++ [(sid, { lastActivity := now })],
         [SockAction.send (OutMsg.authSuccess sid)]) ∧
    ((clients ++ [(sid, { lastActivity := now })] : Clients)).countP (fun p => p.1 == sid) = 1 ∧
    onMessage authToken license env (clients ++ [(sid, { lastActivity := now })]) sid
        (some msg2) now2
      = handleMCPMessage env (clients ++ [(sid, { lastActivity := now })]) sid msg2 now2 := by
  have hlk1 : ((clients ++ [(sid, { lastActivity := now })] : Clients)).lookup sid
      = some { lastActivity := now } := by
    rw [lookup_append, hnew]
    simp [List.lookup, Option.orElse]
  refine ⟨?_, ?_, ?_⟩
  · unfold onMessage
    have ht : (msg.type == some "auth") = true := by
      simp only [beq_iff_eq]
      exact htype
    simp only [ht, hnew, Option.isNone_none, Bool.and_self, if_true]
    unfold handleAuthentication
    have htk : (msg.token != some authToken) = false := by
      simp only [bne_eq_false_iff_eq]
      exact htok
    simp only [htk, Bool.false_eq_true, if_false, hlic, Bool.not_true, setClient, hnew,
      Option.isSome_none, if_false]
  · rw [List.countP_append]
    rw [countP_key_zero_of_lookup_none sid clients hnew]
    simp
  · unfold onMessage
    simp only [hlk1, Option.isNone_some, Bool.and_false, Bool.false_eq_true, if_false,
      Option.isSome_some, if_true]

/-- Witness for C4: a fresh session authenticating with the right token under
an active license, then sending a second `auth` message. -/
theorem bridge_auth_idempotent_witness :
    onMessage "tok" (some { success := true, status := some "active", daysRemaining := none })
        { credentialsOk := true, fetchStatus := some 200, responseBody := "ok" }
        [] "s1" (some { type := some "auth", token := some "tok", id := none }) 5
      = ([("s1", { lastActivity := 5 })], [SockAction.send (OutMsg.authSuccess "s1")]) ∧
    ((([] : Clients) ++ [("s1", { lastActivity := 5 })] : Clients)).countP (fun p => p.1 == "s1") = 1 ∧
    onMessage "tok" (some { success := true, status := some "active", daysRemaining := none })
        { credentialsOk := true, fetchStatus := some 200, responseBody := "ok" }
        (([] : Clients) ++ [("s1", { lastActivity := 5 })]) "s1"
        (some { type := some "auth", token := some "tok", id := none }) 9
      = handleMCPMessage { credentialsOk := true, fetchStatus := some 200, responseBody := "ok" }
          (([] : Clients) ++ [("s1", { lastActivity := 5 })]) "s1"
          { type := some "auth", token := some "tok", id := none } 9 := by
  have h := bridge_auth_idempotent "tok"
    (some { success := true, status := some "active", daysRemaining := none })
    { credentialsOk := true, fetchStatus := some 200, responseBody := "ok" }
    [] "s1" { type := some "auth", token := some "tok", id := none }
    { type := some "auth", token := some "tok", id := none } 5 9
    rfl rfl rfl (by decide)
  exact ⟨h.1, h.2.1, h.2.2⟩

/-- C6: when `forwardToMCPServer` throws — in particular on a non-2xx HTTP
status — `handleMCPMessage` sends the structured envelope
`{ id: message.id, error: { code: -32603, message } }` on the same socket,
never closes it, and the session stays in the registry with a fresh
`lastActivity`, able to carry further messages. -/
theorem bridge_relay_error_keeps_session (env : ForwardEnv) (clients : Clients)
    (sid : String) (msg : Msg) (now : Int) (c : ClientSession)
    (hc : clients.lookup sid = some c)
    (herr : ∃ e, forwardToMCPServer env = Except.error e) :
    handleMCPMessage env clients sid msg now
      = (setClient sid { lastActivity := now } clients,
         [SockAction.send (OutMsg.errorEnvelope msg.id (-32603)
            "Internal error forwarding to MCP server")]) ∧
    (handleMCPMessage env clients sid msg now).1.lookup sid
      = some { lastActivity := now } ∧
    (∀ a ∈ (handleMCPMessage env clients sid msg now).2,
        ∀ code reason, a ≠ SockAction.close code reason) ∧
    (∀ s, env.credentialsOk = true → env.fetchStatus = some s → statusOk s = false →
        ∃ e, forwardToMCPServer env = Except.error e) := by
  obtain ⟨e, he⟩ := herr
  have heq : handleMCPMessage env clients sid msg now
      = (setClient sid { lastActivity := now } clients,
         [SockAction.send (OutMsg.errorEnvelope msg.id (-32603)
            "Internal error forwarding to MCP server")]) := by
    unfold handleMCPMessage
    rw [hc, he]
    rfl
  refine ⟨heq, ?_, ?_, ?_⟩
  · rw [heq]
    exact lookup_setClient_self sid { lastActivity := now } clients
  · rw [heq]
    intro a ha code reason
    simp only [List.mem_singleton] at ha
    subst ha
    intro hcon
    exact SockAction.noConfusion hcon
  · intro s hcred hst hbadst
    unfold forwardToMCPServer
    rw [hcred, hst]
    simp [hbadst]

/-- Witness for C6: an authenticated session relaying while the remote API
returns HTTP 503. -/
theorem bridge_relay_error_keeps_session_witness :
    handleMCPMessage { credentialsOk := true, fetchStatus := some 503, responseBody := "" }
        [("s1", { lastActivity := 0 })] "s1"
        { type := some "tools/list", token := none, id := some "42" } 7
      = (setClient "s1" { lastActivity := 7 } [("s1", { lastActivity := 0 })],
         [SockAction.send (OutMsg.errorEnvelope (some "42") (-32603)
            "Internal error forwarding to MCP server")]) ∧
    (handleMCPMessage { credentialsOk := true, fetchStatus := some 503, responseBody := "" }
        [("s1", { lastActivity := 0 })] "s1"
        { type := some "tools/list", token := none, id := some "42" } 7).1.lookup "s1"
      = some { lastActivity := 7 } ∧
    (∀ a ∈ (handleMCPMessage { credentialsOk := true, fetchStatus := some 503, responseBody := "" }
        [("s1", { lastActivity := 0 })] "s1"
        { type := some "tools/list", token := none, id := some "42" } 7).2,
        ∀ code reason, a ≠ SockAction.close code reason) ∧
    (∀ s, ({ credentialsOk := true, fetchStatus := some 503, responseBody := "" } :
          ForwardEnv).credentialsOk = true →
        ({ credentialsOk := true, fetchStatus := some 503, responseBody := "" } :
          ForwardEnv).fetchStatus = some s → statusOk s = false →
        ∃ e, forwardToMCPServer
          { credentialsOk := true, fetchStatus := some 503, responseBody := "" }
            = Except.error e) :=
  bridge_relay_error_keeps_session
    { credentialsOk := true, fetchStatus := some 503, responseBody := "" }
    [("s1", { lastActivity := 0 })] "s1"
    { type := some "tools/list", token := none, id := some "42" } 7
    { lastActivity := 0 } rfl ⟨"MCP server responded with status: 503", rfl⟩

/-- C8: `verifyLicense` reports allowed exactly when the queried status
succeeded with status `active`, or `trial` with `daysRemaining` absent or
strictly positive; a thrown or failed query (modelled by `none` or
`success = false`) is not allowed — fail-closed. -/
theorem bridge_entitlement_policy (q : Option LicenseStatus) :
    (verifyLicense q).success = true ↔
      ∃ ls, q = some ls ∧ ls.success = true ∧
        (ls.status = some "active" ∨
          (ls.status = some "trial" ∧
            (ls.daysRemaining = none ∨ ∃ d, ls.daysRemaining = some d ∧ 0 < d))) := by
  cases q with
  | none =>
    simp [verifyLicense]
  | some ls =>
    obtain ⟨suc, st, dr⟩ := ls
    cases suc with
    | false =>
      simp [verifyLicense]
    | true =>
      by_cases ha : st = some "active"
      · subst ha
        simp [verifyLicense]
      · by_cases ht : st = some "trial"
        · subst ht
          cases dr with
          | none =>
            simp [verifyLicense]
          | some d =>
            by_cases hd : d ≤ 0
            · simp [verifyLicense, hd]
            · simp [verifyLicense, hd]
              omega
        · have ha2 : (st != some "active") = true := by
            simp only [bne_iff_ne, ne_eq]
            exact ha
          have ht2 : (st != some "trial") = true := by
            simp only [bne_iff_ne, ne_eq]
            exact ht
          simp [verifyLicense, ha2, ht2, ha, ht]

/-- The token equality performed by `handleAuthentication`
(the negation of `message.token !== this.config.authToken`). -/
def tokenMatches (candidate : Option String) (expected : String) : Bool :=
  candidate == some expected

/-- Character-comparison count of a short-circuiting string equality scan:
the cost model of the plain string comparison in the token check, which
stops at the first mismatching character. -/
def strEqSteps : List Char → List Char → Nat
  | [], [] => 0
  | [], _ :: _ => 0
  | _ :: _, [] => 0
  | a :: as, b :: bs => if a = b then 1 + strEqSteps as bs else 1

/-- C9, evaluated at the failing input: two equal-length wrong tokens are
both rejected by `tokenMatches`, yet the comparison scan spends 7 character
comparisons on the candidate sharing a 6-character leading match with the
expected token and only 1 on the candidate sharing none, so the running
time of the comparison depends on the matching-prefix length — it is not a
constant-time comparison. -/
theorem bridge_token_compare_not_constant_time :
    tokenMatches (some "secretAB") "secretXY" = false ∧
    tokenMatches (some "ABsecret") "secretXY" = false ∧
    "secretAB".length = "ABsecret".length ∧
    strEqSteps "secretXY".data "secretAB".data = 7 ∧
    strEqSteps "secretXY".data "ABsecret".data = 1 := by
  refine ⟨rfl, rfl, rfl, rfl, rfl⟩

/-- C7 counterexample: a session whose idle time is exactly 30 minutes —
so "at least 30 minutes" idle — survives the sweep untouched and no close
action is emitted, because the code compares with a strict `>`. -/
theorem bridge_sweep_boundary_counterexample :
    ((1800000 : Int) - 0 ≥ sessionTimeout) ∧
    (sweepSessions [("s1", { lastActivity := 0 })] 1800000).1
      = [("s1", { lastActivity := 0 })] ∧
    (sweepSessions [("s1", { lastActivity := 0 })] 1800000).2 = [] := by
  refine ⟨by decide, rfl, rfl⟩

/-- C7 as amended: each relay message stamps the session's `lastActivity`
with the current time (non-decreasing under a monotone clock), the sweep —
scheduled every `cleanupIntervalMs` = 60000 ms — removes and closes
(1000, "Session expired") exactly the sessions whose idle time strictly
exceeds `sessionTimeout` = 30 minutes, and a session idle for 30 minutes or
less survives the sweep. -/
theorem bridge_sweep_strict_timeout (env : ForwardEnv) (clients : Clients) (sid : String)
    (c : ClientSession) (msg : Msg) (now : Int)
    (hc : clients.lookup sid = some c) (hmono : c.lastActivity ≤ now) :
    ((handleMCPMessage env clients sid msg now).1.lookup sid
        = some { lastActivity := now } ∧ c.lastActivity ≤ now) ∧
    (∀ (cl : Clients) (s : String) (cs : ClientSession) (tick : Int),
        (cl.map Prod.fst).Nodup → cl.lookup s = some cs →
        ((sweepSessions cl tick).1.lookup s
            = if tick - cs.lastActivity > sessionTimeout then none else some cs) ∧
        (tick - cs.lastActivity > sessionTimeout →
            SockAction.close 1000 "Session expired" ∈ (sweepSessions cl tick).2)) ∧
    sessionTimeout = 30 * 60 * 1000 ∧
    cleanupIntervalMs = 60000 := by
  refine ⟨⟨?_, hmono⟩, ?_, rfl, rfl⟩
  · have h1 : (handleMCPMessage env clients sid msg now).1
        = setClient sid { lastActivity := now } clients := by
      unfold handleMCPMessage
      rw [hc]
      cases forwardToMCPServer env <;> rfl
    rw [h1]
    exact lookup_setClient_self sid { lastActivity := now } clients
  · intro cl s cs tick hnodup hlk
    have hval : ∀ q ∈ cl, q.1 = s → q.2 = cs := by
      intro q hq hqs
      have hq2 : (s, q.2) ∈ cl := by
        rw [← hqs]
        exact hq
      have := lookup_eq_of_mem_nodup cl s q.2 hnodup hq2
      rw [hlk] at this
      exact (Option.some.inj this).symm
    constructor
    · by_cases hexp : tick - cs.lastActivity > sessionTimeout
      · rw [if_pos hexp]
        apply lookup_filter_dropped
        intro q hq hqs
        rw [hval q hq hqs]
        simp [hexp]
      · rw [if_neg hexp]
        have hfl : ((sweepSessions cl tick).1).lookup s = cl.lookup s := by
          apply lookup_filter
          intro q hq hqs
          rw [hval q hq hqs]
          simp [hexp]
        rw [hfl, hlk]
    · intro hexp
      have hmem : (s, cs) ∈ cl := mem_of_lookup_some cl s cs hlk
      have hmemf : (s, cs) ∈ cl.filter
          (fun p => decide (tick - p.2.lastActivity > sessionTimeout)) := by
        rw [List.mem_filter]
        exact ⟨hmem, by simp [hexp]⟩
      have : (sweepSessions cl tick).2 = (cl.filter
          (fun p => decide (tick - p.2.lastActivity > sessionTimeout))).map
            (fun _ => SockAction.close 1000 "Session expired") := rfl
      rw [this]
      exact List.mem_map_of_mem _ hmemf

/-- Witness for C7 as amended: a session stamped at time 0, relaying at
time 5, and the sweep at tick 1800001 (30 minutes plus 1 ms of idle). -/
theorem bridge_sweep_strict_timeout_witness :
    ((handleMCPMessage { credentialsOk := true, fetchStatus := some 200, responseBody := "ok" }
        [("s1", { lastActivity := 0 })] "s1"
        { type := some "tools/list", token := none, id := none } 5).1.lookup "s1"
      = some { lastActivity := 5 } ∧ (0 : Int) ≤ 5) ∧
    ((sweepSessions [("s1", { lastActivity := 0 })] 1800001).1.lookup "s1"
        = if (1800001 : Int) - (0 : Int) > sessionTimeout then none
          else some { lastActivity := 0 }) ∧
    ((1800001 : Int) - (0 : Int) > sessionTimeout →
        SockAction.close 1000 "Session expired"
          ∈ (sweepSessions [("s1", { lastActivity := 0 })] 1800001).2) := by
  have h := bridge_sweep_strict_timeout
    { credentialsOk := true, fetchStatus := some 200, responseBody := "ok" }
    [("s1", { lastActivity := 0 })] "s1" { lastActivity := 0 }
    { type := some "tools/list", token := none, id := none } 5 rfl (by decide)
  have h2 := h.2.1 [("s1", { lastActivity := 0 })] "s1" { lastActivity := 0 } 1800001
    (by simp) rfl
  exact ⟨h.1, h2.1, h2.2⟩
